import Mathlib

/-!
Verification of the replication-manager monitor core (monitor.go).

Shallow embedding: the per-tick probe/state-machine logic of `check`, the
`refresh` routine, the agent probe, the slave-list `delete` helper and the
`electCandidate` election are translated into pure Lean functions.  External
collaborators (DB driver, HTTP, DNS, SMTP) are modelled as explicit inputs;
their results are parameters of the embedded functions.
-/

namespace RepMon

/-- Server states, from the constants `stateFailed` .. `stateSuspect` in monitor.go. -/
inductive SState where
  | Master
  | Slave
  | Unconnected
  | Suspect
  | Failed
deriving DecidableEq, Repr

/-- Modelled from the spec: the repository's `gtid` package (not under src/) represents a
GTID as a (domain-id, server-id, sequence-number) triple of unsigned integers. -/
structure Gtid where
  domainId : Nat
  serverId : Nat
  seqNo : Nat
deriving DecidableEq, Repr

/-- Split a character list on a separator character (auxiliary for GTID parsing). -/
def splitOnChar (c : Char) : List Char → List (List Char)
  | [] => [[]]
  | x :: xs =>
    match splitOnChar c xs with
    | [] => if x = c then [[], []] else [[x]]
    | h :: t => if x = c then [] :: h :: t else (x :: h) :: t

/-- Parse a list of decimal digit characters into a number, if well formed. -/
def digitsToNat : List Char → Option Nat
  | [] => Option.none
  | l => l.foldl (fun acc c =>
      match acc with
      | Option.none => Option.none
      | Option.some n => if c.isDigit then Option.some (n * 10 + (c.toNat - 48)) else Option.none)
      (Option.some 0)

/-- Modelled from the spec: parse one textual GTID of the form d-s-n. -/
def parseGtid (l : List Char) : Option Gtid :=
  match splitOnChar '-' l with
  | [d, s, n] =>
    match digitsToNat d, digitsToNat s, digitsToNat n with
    | Option.some d', Option.some s', Option.some n' => Option.some ⟨d', s', n'⟩
    | _, _, _ => Option.none
  | _ => Option.none

/-- Modelled from the spec: the `gtid` package's `NewList` parses the textual form
d-s-n[,d-s-n]*; the empty string parses to the empty list (spec section 4.1). -/
def gtidNewList (s : String) : List Gtid :=
  if s = "" then []
  else (splitOnChar ',' s.toList).filterMap parseGtid

/-- Modelled from the spec: `GetSeqNos` returns the sequence-number components of a list. -/
def gtidGetSeqNos (l : List Gtid) : List Nat :=
  l.map Gtid.seqNo

/-- The data fields of a `ServerMonitor` record (monitor.go lines 21-49); the connection
handle is external and is not part of the embedded state. -/
structure ServerMonitor where
  url : String
  state : SState
  prevState : SState
  failCount : Nat
  binlogPos : List Gtid
  strict : String
  serverID : Nat
  masterServerID : Nat
  masterHost : String
  logBin : String
  usingGtid : String
  currentGtid : List Gtid
  slaveGtid : List Gtid
  ioThread : String
  sqlThread : String
  readOnly : String
  delay : Option Int
  semiSyncMasterStatus : Bool
  ioErrno : Nat
  ioError : String
  sqlErrno : Nat
  sqlError : String
deriving DecidableEq, Repr

/-- A server record with every field blank; concrete records are built from it. -/
def blankServer : ServerMonitor :=
  { url := ""
  , state := SState.Unconnected
  , prevState := SState.Unconnected
  , failCount := 0
  , binlogPos := []
  , strict := ""
  , serverID := 0
  , masterServerID := 0
  , masterHost := ""
  , logBin := ""
  , usingGtid := ""
  , currentGtid := []
  , slaveGtid := []
  , ioThread := ""
  , sqlThread := ""
  , readOnly := ""
  , delay := Option.none
  , semiSyncMasterStatus := false
  , ioErrno := 0
  , ioError := ""
  , sqlErrno := 0
  , sqlError := "" }

/-- The process-wide configuration consumed by `check`: `maxfail`, the current
master's URL (the global `master` pointer, assumed to alias the checked record when the
URLs are equal), and `mailTo` (empty string means no alert recipient configured). -/
structure Cfg where
  maxfail : Nat
  masterURL : String
  mailTo : String
deriving DecidableEq, Repr

/-- Result of the probe in `check` (monitor.go lines 97-107): success, the
`sql.ErrNoRows` sentinel, or any other error.  Real tcp/agent probes never produce the
`sql.ErrNoRows` sentinel, but line 111 tests for it, so the embedding keeps the case. -/
inductive ProbeRes where
  | ok
  | errNoRows
  | errOther
deriving DecidableEq, Repr

/-- First index of an element satisfying p (the loop in `delete`, monitor.go 422-433). -/
def firstIdx (p : String → Bool) : List String → Option Nat
  | [] => Option.none
  | x :: xs => if p x then Option.some 0 else (firstIdx p xs).map (fun n => n + 1)

def emptyURL : String := ""

/-- `(server).delete(&slaves)` from monitor.go lines 422-433: find the first entry whose
URL matches, overwrite that slot with the last entry, and truncate by one. -/
def deleteURL (url : String) (l : List String) : List String :=
  match firstIdx (fun x => x == url) l with
  | Option.none => l
  | Option.some k => (l.set k (l.getLastD emptyURL)).dropLast

/-- The outcome of one `check` call for one server: the updated record, the updated
slaves list, whether the warnings at lines 119 and 131 were logged, and the alert
dispatched at lines 142-157 (its `Type` field), if any. -/
structure TickOut where
  server : ServerMonitor
  slaves : List String
  masterFailMsg : Bool
  serverFailMsg : Bool
  alert : Option SState
deriving DecidableEq, Repr

/-- `check` (monitor.go lines 88-207) for one server, with the probe result and the
result classification of `dbhelper.GetSlaveStatus` (`ssNoRows` = the error was
`sql.ErrNoRows`) as explicit inputs.  When `s0.url = cfg.masterURL` the global `master`
pointer aliases this record, so the writes to `master.State` at lines 121/123 land in
this record; when the URLs differ, lines 113-125 perform no master write at all.
External side effects (metrics, rejoin exec, SET READ_ONLY, email send) change no
embedded state and are omitted; the alert struct is reported in the output. -/
def check (cfg : Cfg) (s0 : ServerMonitor) (slaves : List String)
    (probe : ProbeRes) (ssNoRows : Bool) : TickOut :=
  let s : ServerMonitor := { s0 with prevState := s0.state }
  if probe = ProbeRes.ok then
    if ssNoRows then
      if s.prevState = SState.Failed then
        { server := { s with state := SState.Unconnected, failCount := 0 }
        , slaves := slaves, masterFailMsg := false, serverFailMsg := false
        , alert := Option.none }
      else if s.state ≠ SState.Master then
        { server := { s with state := SState.Unconnected }
        , slaves := slaves, masterFailMsg := false, serverFailMsg := false
        , alert := Option.none }
      else
        { server := s, slaves := slaves, masterFailMsg := false, serverFailMsg := false
        , alert := Option.none }
    else
      if s.prevState = SState.Failed ∨ s.prevState = SState.Unconnected then
        { server := { s with state := SState.Slave, failCount := 0 }
        , slaves := slaves ++ [s.url], masterFailMsg := false, serverFailMsg := false
        , alert := Option.none }
      else
        { server := s, slaves := slaves, masterFailMsg := false, serverFailMsg := false
        , alert := Option.none }
  else
    let base : TickOut :=
      if probe ≠ ProbeRes.errNoRows ∧ (s.state = SState.Master ∨ s.state = SState.Suspect) then
        let fc := s.failCount + 1
        if s.url = cfg.masterURL then
          if cfg.maxfail ≤ fc then
            { server := { s with failCount := fc, state := SState.Failed }
            , slaves := slaves, masterFailMsg := decide (fc = cfg.maxfail)
            , serverFailMsg := false, alert := Option.none }
          else
            { server := { s with failCount := fc, state := SState.Suspect }
            , slaves := slaves, masterFailMsg := false, serverFailMsg := false
            , alert := Option.none }
        else
          { server := { s with failCount := fc }, slaves := slaves
          , masterFailMsg := false, serverFailMsg := false, alert := Option.none }
      else
        if s.state ≠ SState.Master ∧ s.state ≠ SState.Failed then
          let fc := s.failCount + 1
          if cfg.maxfail ≤ fc then
            if fc = cfg.maxfail then
              { server := { s with failCount := fc, state := SState.Failed }
              , slaves := deleteURL s.url slaves, masterFailMsg := false
              , serverFailMsg := true, alert := Option.none }
            else
              { server := { s with failCount := fc, state := SState.Suspect }
              , slaves := deleteURL s.url slaves, masterFailMsg := false
              , serverFailMsg := false, alert := Option.none }
          else
            { server := { s with failCount := fc }, slaves := slaves
            , masterFailMsg := false, serverFailMsg := false, alert := Option.none }
        else
          { server := s, slaves := slaves, masterFailMsg := false, serverFailMsg := false
          , alert := Option.none }
    { base with alert :=
        if base.server.state ≠ base.server.prevState ∧ cfg.mailTo ≠ "" then
          Option.some base.server.state
        else Option.none }

/-- Accumulated state of a run of `check` ticks for one server.  `attained` is a history
variable: whether `failCount` has equalled `maxfail` at the end of some tick so far. -/
structure RunState where
  server : ServerMonitor
  slaves : List String
  masterFailMsgCount : Nat
  serverFailMsgCount : Nat
  alerts : List SState
  attained : Bool
deriving DecidableEq, Repr

/-- One tick of the run: apply `check` and accumulate emitted messages and alerts. -/
def tickStep (cfg : Cfg) (st : RunState) (inp : ProbeRes × Bool) : RunState :=
  let out := check cfg st.server st.slaves inp.1 inp.2
  let newAlerts : List SState :=
    match out.alert with
    | Option.some a => [a]
    | Option.none => []
  { server := out.server
  , slaves := out.slaves
  , masterFailMsgCount := st.masterFailMsgCount + (if out.masterFailMsg then 1 else 0)
  , serverFailMsgCount := st.serverFailMsgCount + (if out.serverFailMsg then 1 else 0)
  , alerts := st.alerts ++ newAlerts
  , attained := st.attained || (out.server.failCount == cfg.maxfail) }

/-- A run of consecutive ticks for one server. -/
def runTicks (cfg : Cfg) (st : RunState) (inputs : List (ProbeRes × Bool)) : RunState :=
  inputs.foldl (tickStep cfg) st

/-- Initial run state for the master record: state `Master`, zero failure count. -/
def initMaster (cfg : Cfg) : RunState :=
  let srv : ServerMonitor :=
    { blankServer with
        url := cfg.masterURL, state := SState.Master, prevState := SState.Master }
  { server := srv
  , slaves := []
  , masterFailMsgCount := 0
  , serverFailMsgCount := 0
  , alerts := []
  , attained := false }

/-- The server variables read by `dbhelper.GetVariables` that `refresh` consumes
(monitor.go lines 215-226). -/
structure DbVars where
  gtidBinlogPos : String
  gtidStrictMode : String
  logBin : String
  readOnly : String
  gtidCurrentPos : String
  gtidSlavePos : String
  serverId : String
deriving DecidableEq, Repr

/-- The slave-status row read by `dbhelper.GetSlaveStatus` that `refresh` consumes
(monitor.go lines 253-262). -/
structure SlaveStatusRow where
  usingGtid : String
  slaveIORunning : String
  slaveSQLRunning : String
  secondsBehindMaster : Option Int
  masterServerId : Nat
  masterHost : String
  lastIOErrno : Nat
  lastIOError : String
  lastSQLError : String
  lastSQLErrno : Nat
deriving DecidableEq, Repr

/-- The external results consumed by one `refresh` call: the ping outcome, the variable
read, the `SET default_master_connection` outcome, the `RPL_SEMI_SYNC_MASTER_STATUS`
status value, and the slave-status read.  Errors are modelled as strings. -/
structure RefreshEnv where
  ping : Option String
  getVariables : Except String DbVars
  setDefaultMasterConn : Option String
  rplSemiSyncMasterStatus : String
  getSlaveStatus : Except String SlaveStatusRow
deriving Repr

/-- `refresh` (monitor.go lines 210-265): returns the updated record and the error
result (`Option.none` = the Go function returned nil). -/
def refresh (env : RefreshEnv) (server : ServerMonitor) : ServerMonitor × Option String :=
  match env.ping with
  | Option.some e => (server, Option.some e)
  | Option.none =>
    match env.getVariables with
    | Except.error e => (server, Option.some e)
    | Except.ok sv =>
      let server1 : ServerMonitor :=
        { server with
            binlogPos := gtidNewList sv.gtidBinlogPos
          , strict := sv.gtidStrictMode
          , logBin := sv.logBin
          , readOnly := sv.readOnly
          , currentGtid := gtidNewList sv.gtidCurrentPos
          , slaveGtid := gtidNewList sv.gtidSlavePos
          , serverID := (digitsToNat sv.serverId.toList).getD 0 }
      match env.setDefaultMasterConn with
      | Option.some e => (server1, Option.some e)
      | Option.none =>
        let server2 : ServerMonitor :=
          { server1 with semiSyncMasterStatus := env.rplSemiSyncMasterStatus == "ON" }
        match env.getSlaveStatus with
        | Except.error _ =>
          ({ server2 with
               usingGtid := ""
             , ioThread := ""
             , sqlThread := ""
             , delay := Option.none
             , masterServerID := 0
             , masterHost := ""
             , ioErrno := 0
             , ioError := ""
             , sqlError := ""
             , sqlErrno := 0 }, Option.none)
        | Except.ok ss =>
          ({ server2 with
               usingGtid := ss.usingGtid
             , ioThread := ss.slaveIORunning
             , sqlThread := ss.slaveSQLRunning
             , delay := ss.secondsBehindMaster
             , masterServerID := ss.masterServerId
             , masterHost := ss.masterHost
             , ioErrno := ss.lastIOErrno
             , ioError := ss.lastIOError
             , sqlError := ss.lastSQLError
             , sqlErrno := ss.lastSQLErrno }, Option.none)

/-- Outcome of the agent-mode probe branch of `check` (monitor.go lines 100-107):
either a runtime panic from dereferencing a nil response, a probe failure carrying the
diagnostic, or success. -/
inductive AgentCheckResult where
  | panicNilDeref
  | failure (diag : String)
  | success
deriving DecidableEq, Repr

/-- The agent-mode probe (monitor.go lines 100-107).  The input models the result of
`http.Get`: `Option.none` is a network-layer failure, for which Go's `http.Get` returns
a nil `*http.Response` together with a non-nil error; `Option.some code` is a received
response with that status code.  Line 103 evaluates `resp.StatusCode` unconditionally,
so a nil response is a nil-pointer dereference, i.e. a runtime panic. -/
def agentProbe (resp : Option Nat) : AgentCheckResult :=
  match resp with
  | Option.none => AgentCheckResult.panicNilDeref
  | Option.some code =>
    if code ≠ 200 then AgentCheckResult.failure ("HTTP Response Code Error: " ++ toString code)
    else AgentCheckResult.success

/-- A candidate examined by `electCandidate`, carrying the fields the loop body reads
after the `sl.refresh()` call at line 328 (whose error is discarded) together with the
results of the `dbhelper` checks on its connection: `CheckSlavePrerequisites`,
`CheckBinlogFilters`, `CheckReplicationFilters`, the `Seconds_Behind_Master` value of
the `GetSlaveStatus` call at line 348 (`Option.none` = the NullInt64 is invalid, which
also covers a failed read, since the error is discarded and the zero row is invalid),
and `CheckSlaveSync`. -/
structure Candidate where
  url : String
  state : SState
  prereqOk : Bool
  binlogFiltersOk : Bool
  replFiltersOk : Bool
  secondsBehindMaster : Option Int
  syncOk : Bool
  slaveGtid : List Gtid
deriving DecidableEq, Repr

/-- Configuration consumed by `electCandidate`: the ignore list, `multiMaster`,
`maxDelay`, `gtidCheck`, `prefMaster`, and the state of the receiver (the old master
`server` on which the method is invoked, read by the guard at line 329). -/
structure ElectCfg where
  ignoreList : List String
  multiMaster : Bool
  maxDelay : Int
  gtidCheck : Bool
  prefMaster : String
  serverState : SState
deriving DecidableEq, Repr

/-- The guard at monitor.go line 329: `server.State != stateFailed || server.State ==
stateMaster`, where `server` is the receiver (the old master), not the candidate. -/
def electChecksActive (cfg : ElectCfg) : Bool :=
  (cfg.serverState != SState.Failed) || (cfg.serverState == SState.Master)

/-- Whether the loop body skips candidate `sl` via one of the `continue` statements at
monitor.go lines 333-360 (all of which sit under the guard at line 329). -/
def candidateSkipped (cfg : ElectCfg) (sl : Candidate) : Bool :=
  electChecksActive cfg &&
    ((cfg.multiMaster && (sl.state == SState.Master)) ||
     !sl.prereqOk ||
     !sl.binlogFiltersOk ||
     !sl.replFiltersOk ||
     sl.secondsBehindMaster.isNone ||
     (match sl.secondsBehindMaster with
      | Option.some d => decide (cfg.maxDelay < d)
      | Option.none => false) ||
     (cfg.gtidCheck && !sl.syncOk))

/-- `seqList[i]`: the sum over `sl.SlaveGtid.GetSeqNos()` accumulated in a uint64
(monitor.go lines 369-375); sequence numbers are uint64 and the sum wraps. -/
def Candidate.score (sl : Candidate) : Nat :=
  (gtidGetSeqNos sl.slaveGtid).sum % 2 ^ 64

/-- The loop of `electCandidate` (monitor.go lines 319-380) from position `i` with the
running maximum `mx` and its index `hiseq`, followed by the final test at lines 381-386. -/
def electFrom (cfg : ElectCfg) : List Candidate → Nat → Nat → Nat → Int
  | [], _, mx, hiseq => if 0 < mx then Int.ofNat hiseq else -1
  | sl :: rest, i, mx, hiseq =>
    if cfg.ignoreList.contains sl.url then electFrom cfg rest (i + 1) mx hiseq
    else if candidateSkipped cfg sl then electFrom cfg rest (i + 1) mx hiseq
    else if sl.url = cfg.prefMaster then Int.ofNat i
    else if mx < sl.score then electFrom cfg rest (i + 1) sl.score i
    else electFrom cfg rest (i + 1) mx hiseq

/-- `electCandidate` (monitor.go lines 311-387). -/
def electCandidate (cfg : ElectCfg) (l : List Candidate) : Int :=
  electFrom cfg l 0 0 0

/-- The score a candidate contributes to the running maximum: its `seqList` entry stays
0 when the candidate is ignored or skipped. -/
def electScore (cfg : ElectCfg) (sl : Candidate) : Nat :=
  if cfg.ignoreList.contains sl.url || candidateSkipped cfg sl then 0 else sl.score

/-- A candidate that passes every eligibility check, used to build concrete instances. -/
def baseCand : Candidate :=
  { url := ""
  , state := SState.Slave
  , prereqOk := true
  , binlogFiltersOk := true
  , replFiltersOk := true
  , secondsBehindMaster := Option.some 0
  , syncOk := true
  , slaveGtid := [] }

/-- Concrete configuration for the C1 failing input: the old master (the receiver) has
state `Failed`, as it does at a real failover. -/
def cfgC1 : ElectCfg :=
  { ignoreList := ["ignored:3306"]
  , multiMaster := false
  , maxDelay := 10
  , gtidCheck := false
  , prefMaster := "pref:3306"
  , serverState := SState.Failed }

/-- Concrete candidate for the C1 failing input: replication stopped
(`Seconds_Behind_Master` invalid), positive GTID sequence sum, not ignored. -/
def candC1 : Candidate :=
  { baseCand with
      url := "s1:3306"
    , secondsBehindMaster := Option.none
    , slaveGtid := [⟨1, 1, 5⟩] }

/-- Concrete configuration for the C2 counterexample and witness. -/
def cfgC2 : Cfg := { maxfail := 3, masterURL := "m:3306", mailTo := "" }

/-- Concrete slave record for the C2 counterexample: state `Slave`, no failures yet. -/
def srvC2 : ServerMonitor :=
  { blankServer with url := "s1:3306", state := SState.Slave, prevState := SState.Slave }

/-- Concrete configuration for the C3 witness. -/
def cfgC3 : Cfg := { maxfail := 2, masterURL := "m:3306", mailTo := "" }

/-- Concrete configuration for the C5 counterexample and witness: `maxfail = 3` and no
mail recipient, matching spec scenario 1. -/
def cfgC5 : Cfg := { maxfail := 3, masterURL := "m:3306", mailTo := "" }

/-- Concrete configuration for the C8 counterexample. -/
def cfgC8 : Cfg := { maxfail := 1, masterURL := "m:3306", mailTo := "" }

/-- Initial state for the C8 counterexample: a fresh unconnected server, empty slaves. -/
def initC8 : RunState :=
  { server := { blankServer with url := "s1:3306" }
  , slaves := []
  , masterFailMsgCount := 0
  , serverFailMsgCount := 0
  , alerts := []
  , attained := false }

/-- Tick inputs for the C8 counterexample: gain slave status, lose it, regain it (the
record is appended to `slaves` a second time), then fail once. -/
def inputsC8 : List (ProbeRes × Bool) :=
  [(ProbeRes.ok, false), (ProbeRes.ok, true), (ProbeRes.ok, false), (ProbeRes.errOther, false)]

/-- Concrete configuration for the C8 witness. -/
def cfgC8w : Cfg := { maxfail := 3, masterURL := "m:3306", mailTo := "" }

/-- Concrete server for the C8 witness: two failures already recorded. -/
def srvC8w : ServerMonitor :=
  { blankServer with
      url := "s1:3306", state := SState.Slave, prevState := SState.Slave, failCount := 2 }

/-- Concrete configuration for the C6 witness (spec scenario 4, the tie-break). -/
def cfgC6 : ElectCfg :=
  { ignoreList := []
  , multiMaster := false
  , maxDelay := 10
  , gtidCheck := false
  , prefMaster := "pref:3306"
  , serverState := SState.Master }

/-- Spec scenario 4 candidates: sequence sums 100, 250, 250. -/
def candsC6 : List Candidate :=
  [ { baseCand with url := "s1:3306", slaveGtid := [⟨1, 1, 100⟩] }
  , { baseCand with url := "s2:3306", slaveGtid := [⟨1, 1, 250⟩] }
  , { baseCand with url := "s3:3306", slaveGtid := [⟨1, 1, 250⟩] } ]

/-- Concrete configuration for the C7 witness (spec scenario 3, preferred master). -/
def cfgC7 : ElectCfg :=
  { ignoreList := []
  , multiMaster := false
  , maxDelay := 10
  , gtidCheck := false
  , prefMaster := "s2:3306"
  , serverState := SState.Master }

/-- Spec scenario 3 candidates: sums 100, 250 (preferred), 180. -/
def candC7a : Candidate := { baseCand with url := "s1:3306", slaveGtid := [⟨1, 1, 100⟩] }

def candC7b : Candidate := { baseCand with url := "s2:3306", slaveGtid := [⟨1, 1, 250⟩] }

def candC7c : Candidate := { baseCand with url := "s3:3306", slaveGtid := [⟨1, 1, 180⟩] }

/-- Error text used by the concrete refresh environments. -/
def pingErr : String := "dial tcp: connection refused"

def unreachableErr : String := "unreachable"

def setMasterConnErr : String := "ERROR 1193: Unknown system variable"

/-- Concrete refresh environment for the C9 witness: the initial ping fails. -/
def envC9 : RefreshEnv :=
  { ping := Option.some pingErr
  , getVariables := Except.error unreachableErr
  , setDefaultMasterConn := Option.none
  , rplSemiSyncMasterStatus := ""
  , getSlaveStatus := Except.error unreachableErr }

/-- Concrete server record for the C9 witness. -/
def srvC9 : ServerMonitor :=
  { blankServer with url := "s1:3306", state := SState.Slave, logBin := "ON" }

/-- Concrete variable read for the C10 witness. -/
def svC10 : DbVars :=
  { gtidBinlogPos := ""
  , gtidStrictMode := "ON"
  , logBin := "ON"
  , readOnly := "OFF"
  , gtidCurrentPos := ""
  , gtidSlavePos := ""
  , serverId := "7" }

/-- Concrete refresh environment for the C10 witness: ping and the variable read
succeed, then `SET default_master_connection` fails. -/
def envC10 : RefreshEnv :=
  { ping := Option.none
  , getVariables := Except.ok svC10
  , setDefaultMasterConn := Option.some setMasterConnErr
  , rplSemiSyncMasterStatus := "ON"
  , getSlaveStatus := Except.error unreachableErr }

/-- Concrete server record for the C10 witness: its fields differ from the read ones. -/
def srvC10 : ServerMonitor :=
  { blankServer with
      url := "s1:3306", state := SState.Slave, logBin := "OFF", strict := "OFF"
    , serverID := 3 }

/-! ### Helper lemmas -/

theorem firstIdx_lt_length {p : String → Bool} :
    ∀ {l : List String} {k : Nat}, firstIdx p l = Option.some k → k < l.length := by
  intro l
  induction l with
  | nil => intro k h; simp [firstIdx] at h
  | cons x xs ih =>
    intro k h
    by_cases hp : p x
    · simp [firstIdx, hp] at h
      simp
      omega
    · simp [firstIdx, hp] at h
      obtain ⟨n, hn, rfl⟩ := h
      have := ih hn
      simp
      omega

theorem firstIdx_get {p : String → Bool} :
    ∀ {l : List String} {k : Nat}, firstIdx p l = Option.some k → ∀ (hk : k < l.length),
      p (l.get ⟨k, hk⟩) = true := by
  intro l
  induction l with
  | nil => intro k h hk; simp [firstIdx] at h
  | cons x xs ih =>
    intro k h hk
    by_cases hp : p x
    · simp [firstIdx, hp] at h
      subst h
      simpa using hp
    · simp [firstIdx, hp] at h
      obtain ⟨n, hn, rfl⟩ := h
      simpa using ih hn (by simpa using hk)

theorem firstIdx_none {p : String → Bool} :
    ∀ {l : List String}, firstIdx p l = Option.none → ∀ x ∈ l, p x = false := by
  intro l
  induction l with
  | nil => intro _ x hx; simp at hx
  | cons y ys ih =>
    intro h x hx
    by_cases hp : p y
    · simp [firstIdx, hp] at h
    · rcases List.mem_cons.1 hx with rfl | hx'
      · simpa using hp
      · refine ih ?_ x hx'
        simp [firstIdx, hp] at h
        cases hfi : firstIdx p ys with
        | none => rfl
        | some n => rw [hfi] at h; simp at h

/-- Removing a URL with the swap-with-last `delete` really removes it, provided the
slaves list has no duplicate entries. -/
theorem not_mem_deleteURL {url : String} {l : List String} (hnd : l.Nodup) :
    url ∉ deleteURL url l := by
  intro hmem
  unfold deleteURL at hmem
  split at hmem
  next hfi =>
    have := firstIdx_none hfi url hmem
    simp at this
  next k hfi =>
    have hk : k < l.length := firstIdx_lt_length hfi
    have hkurl : l.get ⟨k, hk⟩ = url := by
      have := firstIdx_get hfi hk
      simpa using this
    have hne : l ≠ [] := by
      intro h
      subst h
      simp at hk
    have hb : l.getLastD emptyURL = l.get ⟨l.length - 1, by omega⟩ := by
      rw [List.getLastD_eq_getLast?, List.getLast?_eq_getLast l hne]
      simp only [Option.getD_some]
      rw [List.getLast_eq_getElem]
      simp [List.get_eq_getElem]
    rw [List.dropLast_eq_take] at hmem
    rw [List.mem_iff_getElem] at hmem
    obtain ⟨i, hi, hieq⟩ := hmem
    have hi' : i < l.length - 1 := by simpa using hi
    have hieq' : (l.set k (l.getLastD emptyURL)).get ⟨i, by simp; omega⟩ = url := by
      rw [← hieq]
      rw [List.get_eq_getElem, List.getElem_take]
    by_cases hik : k = i
    · subst hik
      have hset : (l.set k (l.getLastD emptyURL)).get ⟨k, by simp; omega⟩
          = l.getLastD emptyURL := by
        rw [List.get_eq_getElem, List.getElem_set]
        simp
      have hlast : l.get ⟨l.length - 1, by omega⟩ = url := by
        rw [← hb, ← hset]
        exact hieq'
      have heq : l.get ⟨l.length - 1, by omega⟩ = l.get ⟨k, hk⟩ := by rw [hlast, hkurl]
      have hinj := (List.Nodup.get_inj_iff hnd).1 heq
      have : l.length - 1 = k := by simpa using hinj
      omega
    · have hset : (l.set k (l.getLastD emptyURL)).get ⟨i, by simp; omega⟩
          = l.get ⟨i, by omega⟩ := by
        rw [List.get_eq_getElem, List.get_eq_getElem, List.getElem_set]
        simp [hik]
      have hiurl : l.get ⟨i, by omega⟩ = url := by
        rw [← hset]
        exact hieq'
      have heq : l.get ⟨i, by omega⟩ = l.get ⟨k, hk⟩ := by rw [hiurl, hkurl]
      have hinj := (List.Nodup.get_inj_iff hnd).1 heq
      simp at hinj
      omega

/-! ### Claim theorems -/

/-- C1: the claim states that `electCandidate` never returns the index of a server whose
`Seconds_Behind_Master` (read during the eligibility pass) is invalid or exceeds
`maxDelay`.  The code violates this: the guard at line 329 reads the receiver's (old
master's) state, so when the old master is `Failed` — the normal failover situation —
every eligibility check is skipped.  This theorem evaluates the code at the failing
input: a single candidate with an invalid (null) `Seconds_Behind_Master`, not in the
ignore list, is elected (index 0 is returned). -/
theorem electCandidate_elects_invalid_delay_when_master_failed :
    electCandidate cfgC1 [candC1] = Int.ofNat 0 ∧
    candC1.secondsBehindMaster = Option.none ∧
    cfgC1.ignoreList.contains candC1.url = false ∧
    cfgC1.serverState = SState.Failed := by
  refine ⟨by decide, by decide, by decide, by decide⟩

/-- C4: the claim states the agent probe never panics and treats network-layer `http.Get`
failures as probe failures.  The code violates the first part: on a network-layer
failure Go's `http.Get` returns a nil response, and line 103 dereferences
`resp.StatusCode` unconditionally — a nil-pointer dereference, i.e. a runtime panic.
The second part (any non-200 status is a failure whose diagnostic includes the code) is
what the code does.  This theorem evaluates the embedded probe at the failing input and
at a non-200 status. -/
theorem agentProbe_panics_on_network_error :
    agentProbe Option.none = AgentCheckResult.panicNilDeref ∧
    agentProbe (Option.some 404)
      = AgentCheckResult.failure ("HTTP Response Code Error: " ++ toString 404) ∧
    agentProbe (Option.some 200) = AgentCheckResult.success := by
  refine ⟨rfl, rfl, rfl⟩

/-- C2 counterexample: the claim states that on a probe failure of a non-master,
non-failed server (handled by the else-arm), an incremented `FailCount` below the
`maxfail` threshold makes the state `Suspect`.  At the concrete input (state `Slave`,
`FailCount` 0, `maxfail` 3, probe failure) the incremented count 1 is below the
threshold and the state stays `Slave`, not `Suspect`. -/
theorem check_slave_below_threshold_not_suspect :
    (check cfgC2 srvC2 ["s1:3306"] ProbeRes.errOther false).server.failCount = 1 ∧
    (1 : Nat) < cfgC2.maxfail ∧
    (check cfgC2 srvC2 ["s1:3306"] ProbeRes.errOther false).server.state = SState.Slave ∧
    SState.Slave ≠ SState.Suspect := by
  refine ⟨by decide, by decide, by decide, by decide⟩

/-- C2 amended: on the else-arm of the probe-failure handling (server neither `Master`
nor `Failed`, and not taken by the master/Suspect arm), `FailCount` is incremented;
if the incremented count equals `maxfail` the state becomes `Failed` and the server's
first occurrence is removed from the slaves list (really removed when the list has no
duplicates); if it exceeds `maxfail` the state becomes `Suspect` and the removal also
happens; if it is below `maxfail` the state and the slaves list are unchanged. -/
theorem check_else_arm_characterization (cfg : Cfg) (s : ServerMonitor)
    (slaves : List String) (probe : ProbeRes) (nr : Bool)
    (hfail : probe ≠ ProbeRes.ok)
    (harm : probe = ProbeRes.errNoRows ∨ (s.state ≠ SState.Master ∧ s.state ≠ SState.Suspect))
    (hst : s.state ≠ SState.Master ∧ s.state ≠ SState.Failed) :
    (check cfg s slaves probe nr).server.failCount = s.failCount + 1 ∧
    (s.failCount + 1 = cfg.maxfail →
      (check cfg s slaves probe nr).server.state = SState.Failed ∧
      (check cfg s slaves probe nr).slaves = deleteURL s.url slaves) ∧
    (cfg.maxfail < s.failCount + 1 →
      (check cfg s slaves probe nr).server.state = SState.Suspect ∧
      (check cfg s slaves probe nr).slaves = deleteURL s.url slaves) ∧
    (s.failCount + 1 < cfg.maxfail →
      (check cfg s slaves probe nr).server.state = s.state ∧
      (check cfg s slaves probe nr).slaves = slaves) ∧
    (slaves.Nodup → s.failCount + 1 = cfg.maxfail → s.url ∉ (check cfg s slaves probe nr).slaves) := by
  have harm' : ¬(probe ≠ ProbeRes.errNoRows ∧
      ((s.state = SState.Master ∨ s.state = SState.Suspect))) := by
    rcases harm with h | ⟨h1, h2⟩
    · intro hc
      exact hc.1 h
    · intro hc
      rcases hc.2 with h | h
      · exact h1 h
      · exact h2 h
  simp only [check, if_neg hfail]
  simp only [harm', if_false, if_neg]
  have hst' : ({ s with prevState := s.state } : ServerMonitor).state ≠ SState.Master ∧
      ({ s with prevState := s.state } : ServerMonitor).state ≠ SState.Failed := hst
  rw [if_pos hst']
  by_cases hle : cfg.maxfail ≤ s.failCount + 1
  · rw [if_pos hle]
    by_cases heq : s.failCount + 1 = cfg.maxfail
    · rw [if_pos heq]
      refine ⟨rfl, fun _ => ⟨rfl, rfl⟩, fun hlt => absurd heq (by omega), fun hlt => absurd hle (by omega), ?_⟩
      intro hnd _
      exact not_mem_deleteURL hnd
    · rw [if_neg heq]
      refine ⟨rfl, fun h => absurd h heq, fun _ => ⟨rfl, rfl⟩, fun hlt => absurd hle (by omega), ?_⟩
      intro _ h
      exact absurd h heq
  · rw [if_neg hle]
    refine ⟨rfl, fun h => absurd hle (by omega), fun h => absurd hle (by omega), fun _ => ⟨rfl, rfl⟩, ?_⟩
    intro _ h
    exact absurd hle (by omega)

/-- C2 witness: the amended theorem applied at a concrete input (state `Slave`,
`FailCount` 2, `maxfail` 3, one more failure reaches the threshold). -/
theorem check_else_arm_characterization_witness :
    (check cfgC2 srvC8w ["s1:3306", "s2:3306"] ProbeRes.errOther false).server.failCount = 3 ∧
    ((check cfgC2 srvC8w ["s1:3306", "s2:3306"] ProbeRes.errOther false).server.state = SState.Failed ∧
      (check cfgC2 srvC8w ["s1:3306", "s2:3306"] ProbeRes.errOther false).slaves
        = deleteURL srvC8w.url ["s1:3306", "s2:3306"]) ∧
    srvC8w.url ∉ (check cfgC2 srvC8w ["s1:3306", "s2:3306"] ProbeRes.errOther false).slaves := by
  have h := check_else_arm_characterization cfgC2 srvC8w ["s1:3306", "s2:3306"]
    ProbeRes.errOther false (by decide) (by decide) (by decide)
  refine ⟨h.1, h.2.1 (by decide), h.2.2.2.2 (by decide) (by decide)⟩

/-- C9: if the initial ping of `refresh` fails, the error is returned and the whole
server record is returned unchanged. -/
theorem refresh_ping_failure_atomic (env : RefreshEnv) (server : ServerMonitor)
    (e : String) (hp : env.ping = Option.some e) :
    refresh env server = (server, Option.some e) := by
  unfold refresh
  rw [hp]

/-- C9 witness: the theorem applied at a concrete environment whose ping fails. -/
theorem refresh_ping_failure_atomic_witness :
    refresh envC9 srvC9 = (srvC9, Option.some pingErr) :=
  refresh_ping_failure_atomic envC9 srvC9 pingErr rfl

/-- C10: `refresh` is not atomic after the variable read: when the
`SET default_master_connection` step fails, the error is returned, but `BinlogPos`,
`Strict`, `LogBin`, `ReadOnly`, `CurrentGtid`, `SlaveGtid` and `ServerID` have already
been overwritten with the values read by `GetVariables`. -/
theorem refresh_not_atomic_on_set_master_conn (env : RefreshEnv) (server : ServerMonitor)
    (sv : DbVars) (e : String)
    (h1 : env.ping = Option.none) (h2 : env.getVariables = Except.ok sv)
    (h3 : env.setDefaultMasterConn = Option.some e) :
    refresh env server =
      ({ server with
           binlogPos := gtidNewList sv.gtidBinlogPos
         , strict := sv.gtidStrictMode
         , logBin := sv.logBin
         , readOnly := sv.readOnly
         , currentGtid := gtidNewList sv.gtidCurrentPos
         , slaveGtid := gtidNewList sv.gtidSlavePos
         , serverID := (digitsToNat sv.serverId.toList).getD 0 }, Option.some e) := by
  unfold refresh
  rw [h1, h2, h3]

/-- C10 witness: the theorem applied at a concrete environment; the returned record's
`LogBin`, `Strict` and `ServerID` differ from the input record's, and the error of the
failed `SET default_master_connection` is returned. -/
theorem refresh_not_atomic_witness :
    (refresh envC10 srvC10).2 = Option.some setMasterConnErr ∧
    (refresh envC10 srvC10).1.logBin = "ON" ∧
    srvC10.logBin = "OFF" ∧
    (refresh envC10 srvC10).1.serverID = 7 ∧
    srvC10.serverID = 3 := by
  have h := refresh_not_atomic_on_set_master_conn envC10 srvC10 svC10 setMasterConnErr rfl rfl rfl
  rw [h]
  refine ⟨rfl, rfl, rfl, by decide, rfl⟩

/-- C5 counterexample: the claim states that with `maxfail = 3`, after one failed master
probe (leaving `Suspect`, `FailCount` 1) and one successful probe, the master's state
is `Master` again.  At the concrete run the successful tick takes the no-slave-status
path and line 190 sets the state to `Unconnected`, not `Master`. -/
theorem master_blip_counterexample :
    cfgC5.maxfail = 3 ∧
    (runTicks cfgC5 (initMaster cfgC5) [(ProbeRes.errOther, false)]).server.state
      = SState.Suspect ∧
    (runTicks cfgC5 (initMaster cfgC5) [(ProbeRes.errOther, false)]).server.failCount = 1 ∧
    (runTicks cfgC5 (initMaster cfgC5)
        [(ProbeRes.errOther, false), (ProbeRes.ok, true)]).server.state
      = SState.Unconnected ∧
    SState.Unconnected ≠ SState.Master := by
  refine ⟨by decide, by decide, by decide, by decide, by decide⟩

/-- C5 amended: with `maxfail = 3` and no mail recipient configured, if the master's
probe fails on one tick it becomes `Suspect` with `FailCount` 1 and no alert is
emitted; if the probe succeeds on the next tick and the master reports no slave
status, its state becomes `Unconnected` (not `Master`), its `FailCount` is still 1,
and still no alert is emitted. -/
theorem master_blip_two_ticks (cfg : Cfg) (h3 : cfg.maxfail = 3) (hm : cfg.mailTo = "") :
    (runTicks cfg (initMaster cfg) [(ProbeRes.errOther, false)]).server.state
      = SState.Suspect ∧
    (runTicks cfg (initMaster cfg) [(ProbeRes.errOther, false)]).server.failCount = 1 ∧
    (runTicks cfg (initMaster cfg) [(ProbeRes.errOther, false)]).alerts = [] ∧
    (runTicks cfg (initMaster cfg)
        [(ProbeRes.errOther, false), (ProbeRes.ok, true)]).server.state
      = SState.Unconnected ∧
    (runTicks cfg (initMaster cfg)
        [(ProbeRes.errOther, false), (ProbeRes.ok, true)]).server.failCount = 1 ∧
    (runTicks cfg (initMaster cfg)
        [(ProbeRes.errOther, false), (ProbeRes.ok, true)]).alerts = [] := by
  simp [runTicks, tickStep, check, initMaster, blankServer, h3, hm]

/-- C5 witness: the amended theorem applied at the concrete configuration `cfgC5`. -/
theorem master_blip_two_ticks_witness :
    (runTicks cfgC5 (initMaster cfgC5) [(ProbeRes.errOther, false)]).server.state
      = SState.Suspect ∧
    (runTicks cfgC5 (initMaster cfgC5) [(ProbeRes.errOther, false)]).server.failCount = 1 ∧
    (runTicks cfgC5 (initMaster cfgC5) [(ProbeRes.errOther, false)]).alerts = [] ∧
    (runTicks cfgC5 (initMaster cfgC5)
        [(ProbeRes.errOther, false), (ProbeRes.ok, true)]).server.state
      = SState.Unconnected ∧
    (runTicks cfgC5 (initMaster cfgC5)
        [(ProbeRes.errOther, false), (ProbeRes.ok, true)]).server.failCount = 1 ∧
    (runTicks cfgC5 (initMaster cfgC5)
        [(ProbeRes.errOther, false), (ProbeRes.ok, true)]).alerts = [] :=
  master_blip_two_ticks cfgC5 rfl rfl

/-- C8 counterexample: the claim states that at every reachable state no `Failed` server
is in the slaves list.  Reachable counterexample run (`maxfail` 1): the server gains
slave status (appended to `slaves`), loses it (`Unconnected`, still listed), regains it
(appended a second time — a duplicate), then fails; the `Failed` transition removes
only the first occurrence, so the now-`Failed` server is still in `slaves`. -/
theorem failed_server_still_in_slaves_counterexample :
    (runTicks cfgC8 initC8 inputsC8).server.state = SState.Failed ∧
    (runTicks cfgC8 initC8 inputsC8).server.url ∈ (runTicks cfgC8 initC8 inputsC8).slaves := by
  refine ⟨by decide, by decide⟩

/-- C8 amended: a single `check` tick preserves "a `Failed` server is not in `slaves`"
provided the slaves list has no duplicate entries and the server is not listed while in
state `Master` or `Suspect` (the master arm transitions to `Failed` without a removal):
removal happens at the `Failed` transition, and a record is re-appended only when it
transitions to `Slave`. -/
theorem check_preserves_failed_not_in_slaves (cfg : Cfg) (s : ServerMonitor)
    (slaves : List String) (probe : ProbeRes) (nr : Bool)
    (hnd : slaves.Nodup)
    (hms : s.url ∈ slaves → ¬(s.state = SState.Master ∨ s.state = SState.Suspect))
    (hfd : s.state = SState.Failed → s.url ∉ slaves) :
    (check cfg s slaves probe nr).server.state = SState.Failed →
      s.url ∉ (check cfg s slaves probe nr).slaves := by
  cases probe with
  | ok =>
    cases nr with
    | true =>
      by_cases hsf : s.state = SState.Failed
      · simp [check, hsf]
      · by_cases hsm : s.state = SState.Master
        · simp [check, hsf, hsm]
        · simp [check, hsf, hsm]
    | false =>
      by_cases hpf : s.state = SState.Failed ∨ s.state = SState.Unconnected
      · simp [check, hpf]
      · simp [check, hpf]
        intro h
        exact hfd h
  | errNoRows =>
    by_cases hst : s.state ≠ SState.Master ∧ s.state ≠ SState.Failed
    · by_cases hle : cfg.maxfail ≤ s.failCount + 1
      · by_cases heq : s.failCount + 1 = cfg.maxfail
        · simp [check, hst, hle, heq]
          exact not_mem_deleteURL hnd
        · simp [check, hst, hle, heq]
      · simp [check, hst, hle]
    · simp [check, hst]
      intro h
      exact hfd h
  | errOther =>
    by_cases harm : s.state = SState.Master ∨ s.state = SState.Suspect
    · by_cases hurl : s.url = cfg.masterURL
      · by_cases hle : cfg.maxfail ≤ s.failCount + 1
        · simp [check, harm, hurl, hle]
          intro hmem
          refine hms ?_ harm
          rw [hurl]
          exact hmem
        · simp [check, harm, hurl, hle]
      · simp [check, harm, hurl]
        intro h
        rcases harm with hh | hh
        · rw [hh] at h; simp at h
        · rw [hh] at h; simp at h
    · push_neg at harm
      obtain ⟨hm1, hm2⟩ := harm
      by_cases hsf : s.state = SState.Failed
      · simp [check, hm1, hm2, hsf]
        exact hfd hsf
      · by_cases hle : cfg.maxfail ≤ s.failCount + 1
        · by_cases heq : s.failCount + 1 = cfg.maxfail
          · simp [check, hm1, hm2, hsf, hle, heq]
            exact not_mem_deleteURL hnd
          · simp [check, hm1, hm2, hsf, hle, heq]
        · simp [check, hm1, hm2, hsf, hle]

/-- C8 witness: the amended theorem applied at a concrete input — a `Slave` server one
failure away from the threshold, listed once, fails and is really removed. -/
theorem check_preserves_failed_not_in_slaves_witness :
    (check cfgC8w srvC8w ["s1:3306", "s2:3306"] ProbeRes.errOther false).server.state
      = SState.Failed ∧
    srvC8w.url ∉ (check cfgC8w srvC8w ["s1:3306", "s2:3306"] ProbeRes.errOther false).slaves :=
  ⟨by decide,
   check_preserves_failed_not_in_slaves cfgC8w srvC8w ["s1:3306", "s2:3306"]
     ProbeRes.errOther false (by decide) (by decide) (by decide) (by decide)⟩

theorem electFrom_append_pref (cfg : ElectCfg) (c : Candidate) (l2 : List Candidate)
    (hc1 : cfg.ignoreList.contains c.url = false)
    (hc2 : candidateSkipped cfg c = false)
    (hc3 : c.url = cfg.prefMaster) :
    ∀ (l1 : List Candidate) (i mx hi : Nat),
      (∀ b ∈ l1, cfg.ignoreList.contains b.url = true ∨ candidateSkipped cfg b = true ∨
        b.url ≠ cfg.prefMaster) →
      electFrom cfg (l1 ++ c :: l2) i mx hi = Int.ofNat (i + l1.length) := by
  intro l1
  induction l1 with
  | nil =>
    intro i mx hi _
    simp only [List.nil_append, electFrom]
    rw [if_neg (by rw [hc1]; simp), if_neg (by rw [hc2]; simp), if_pos hc3]
    simp
  | cons b l1' ih =>
    intro i mx hi hpre
    have hb := hpre b (by simp)
    have hrest : ∀ x ∈ l1', cfg.ignoreList.contains x.url = true ∨
        candidateSkipped cfg x = true ∨ x.url ≠ cfg.prefMaster :=
      fun x hx => hpre x (by simp [hx])
    have harith : Int.ofNat (i + 1 + l1'.length) = Int.ofNat (i + (b :: l1').length) := by
      simp [List.length_cons]
      omega
    by_cases hig : cfg.ignoreList.contains b.url
    · simp only [List.cons_append, electFrom, if_pos hig, List.append_eq]
      rw [ih (i + 1) mx hi hrest]
      exact harith
    · by_cases hsk : candidateSkipped cfg b
      · simp only [List.cons_append, electFrom, if_neg hig, if_pos hsk, List.append_eq]
        rw [ih (i + 1) mx hi hrest]
        exact harith
      · have hbp : b.url ≠ cfg.prefMaster := by
          rcases hb with h | h | h
          · exact absurd h (by simpa using hig)
          · exact absurd h (by simpa using hsk)
          · exact h
        simp only [List.cons_append, electFrom, if_neg hig, if_neg hsk, if_neg hbp, List.append_eq]
        by_cases hlt : mx < b.score
        · rw [if_pos hlt, ih (i + 1) b.score i hrest]
          exact harith
        · rw [if_neg hlt, ih (i + 1) mx hi hrest]
          exact harith

/-- C7: in `electCandidate`, when the examined candidate (one that reaches the check at
line 363, i.e. is neither in the ignore list nor skipped by the eligibility pass) has
the configured preferred master's URL, its index is returned immediately, regardless of
the GTID sequence scores of any candidate: no earlier candidate triggers the early
return, so the result is the candidate's position. -/
theorem electCandidate_pref_master_early_return (cfg : ElectCfg)
    (l1 l2 : List Candidate) (c : Candidate)
    (hc1 : cfg.ignoreList.contains c.url = false)
    (hc2 : candidateSkipped cfg c = false)
    (hc3 : c.url = cfg.prefMaster)
    (hpre : ∀ b ∈ l1, cfg.ignoreList.contains b.url = true ∨ candidateSkipped cfg b = true ∨
      b.url ≠ cfg.prefMaster) :
    electCandidate cfg (l1 ++ c :: l2) = Int.ofNat l1.length := by
  unfold electCandidate
  rw [electFrom_append_pref cfg c l2 hc1 hc2 hc3 l1 0 0 0 hpre]
  simp

/-- C7 witness: spec scenario 3 — candidates with sums 100, 250 (preferred), 180;
index 1 is returned regardless of the scores. -/
theorem electCandidate_pref_master_witness :
    electCandidate cfgC7 [candC7a, candC7b, candC7c] = Int.ofNat 1 :=
  electCandidate_pref_master_early_return cfgC7 [candC7a] [candC7c] candC7b
    (by decide) (by decide) (by decide) (by decide)

/-- The running-maximum loop of `electCandidate` restricted to the contributed scores:
from position `i` with current maximum `mx` attained at `hi`. -/
def runMax : List Nat → Nat → Nat → Nat → Nat × Nat
  | [], _, mx, hi => (mx, hi)
  | x :: rest, i, mx, hi =>
    if mx < x then runMax rest (i + 1) x i else runMax rest (i + 1) mx hi

theorem electFrom_eq_runMax (cfg : ElectCfg) :
    ∀ (l : List Candidate) (i mx hi : Nat), (∀ sl ∈ l, sl.url ≠ cfg.prefMaster) →
      electFrom cfg l i mx hi =
        (if 0 < (runMax (l.map (electScore cfg)) i mx hi).1
         then Int.ofNat (runMax (l.map (electScore cfg)) i mx hi).2 else -1) := by
  intro l
  induction l with
  | nil => intro i mx hi _; simp [electFrom, runMax]
  | cons sl rest ih =>
    intro i mx hi hp
    have hsl : sl.url ≠ cfg.prefMaster := hp sl (by simp)
    have hrest : ∀ x ∈ rest, x.url ≠ cfg.prefMaster := fun x hx => hp x (by simp [hx])
    have hzero : (if mx < 0 then runMax (rest.map (electScore cfg)) (i + 1) 0 i
        else runMax (rest.map (electScore cfg)) (i + 1) mx hi)
        = runMax (rest.map (electScore cfg)) (i + 1) mx hi := if_neg (by omega)
    cases hig : cfg.ignoreList.contains sl.url with
    | true =>
      have hsc : electScore cfg sl = 0 := by
        unfold electScore
        rw [if_pos (by rw [hig]; rfl)]
      simp only [electFrom, List.map_cons, hsc, runMax]
      rw [if_pos (by rw [hig]), hzero]
      exact ih (i + 1) mx hi hrest
    | false =>
      cases hsk : candidateSkipped cfg sl with
      | true =>
        have hsc : electScore cfg sl = 0 := by
          unfold electScore
          rw [if_pos (by rw [hig, hsk]; rfl)]
        simp only [electFrom, List.map_cons, hsc, runMax]
        rw [if_neg (by rw [hig]; simp), if_pos (by rw [hsk]), hzero]
        exact ih (i + 1) mx hi hrest
      | false =>
        have hsc : electScore cfg sl = sl.score := by
          unfold electScore
          rw [if_neg (by rw [hig, hsk]; simp)]
        simp only [electFrom, List.map_cons, hsc, runMax]
        rw [if_neg (by rw [hig]; simp), if_neg (by rw [hsk]; simp), if_neg hsl]
        by_cases hlt : mx < sl.score
        · rw [if_pos hlt, if_pos hlt]
          exact ih (i + 1) sl.score i hrest
        · rw [if_neg hlt, if_neg hlt]
          exact ih (i + 1) mx hi hrest

theorem runMax_spec :
    ∀ (ls : List Nat) (i mx hi : Nat),
      (ls.foldr Nat.max 0 ≤ mx → runMax ls i mx hi = (mx, hi)) ∧
      (mx < ls.foldr Nat.max 0 →
        runMax ls i mx hi
          = (ls.foldr Nat.max 0,
             i + ls.findIdx (fun x => x == ls.foldr Nat.max 0))) := by
  intro ls
  induction ls with
  | nil =>
    intro i mx hi
    refine ⟨fun _ => rfl, fun h => ?_⟩
    simp at h
  | cons x rest ih =>
    intro i mx hi
    have hfold : (x :: rest).foldr Nat.max 0 = Nat.max x (rest.foldr Nat.max 0) := by
      simp [List.foldr_cons]
    constructor
    · intro hle
      rw [hfold] at hle
      have hx : x ≤ mx := le_trans (Nat.le_max_left _ _) hle
      have hr : rest.foldr Nat.max 0 ≤ mx := le_trans (Nat.le_max_right _ _) hle
      simp only [runMax]
      rw [if_neg (by omega)]
      exact (ih (i + 1) mx hi).1 hr
    · intro hlt
      rw [hfold] at hlt
      simp only [runMax]
      by_cases hx : mx < x
      · rw [if_pos hx]
        by_cases hxr : rest.foldr Nat.max 0 ≤ x
        · have hM : Nat.max x (rest.foldr Nat.max 0) = x := Nat.max_eq_left hxr
          rw [(ih (i + 1) x i).1 hxr]
          rw [hfold, hM]
          rw [List.findIdx_cons]
          have hbx : (x == x) = true := by simp
          rw [hbx]
          simp
        · have hxr' : x < rest.foldr Nat.max 0 := by omega
          have hM : Nat.max x (rest.foldr Nat.max 0) = rest.foldr Nat.max 0 :=
            Nat.max_eq_right (by omega)
          rw [(ih (i + 1) x i).2 hxr']
          rw [hfold, hM]
          rw [List.findIdx_cons]
          have hbx : (x == rest.foldr Nat.max 0) = false := by
            simp
            omega
          rw [hbx]
          simp
          omega
      · have hr : mx < rest.foldr Nat.max 0 := by
          rcases lt_max_iff.1 hlt with h | h
          · exact absurd h hx
          · exact h
        rw [if_neg hx]
        rw [(ih (i + 1) mx hi).2 hr]
        have hM : Nat.max x (rest.foldr Nat.max 0) = rest.foldr Nat.max 0 :=
          Nat.max_eq_right (by omega)
        rw [hfold, hM]
        rw [List.findIdx_cons]
        have hbx : (x == rest.foldr Nat.max 0) = false := by
          simp
          omega
        rw [hbx]
        simp
        omega

/-- C6: after the eligibility pass (no candidate triggers the preferred-master early
return), if the maximum contributed score (sum of `SlaveGtid` sequence numbers of the
candidates that survive the pass; skipped candidates contribute 0) is positive, the
index of the first candidate attaining the maximum is returned (ties broken by lowest
index); otherwise -1 is returned ("No suitable candidates found."). -/
theorem electCandidate_max_score_first (cfg : ElectCfg) (l : List Candidate)
    (hp : ∀ sl ∈ l, sl.url ≠ cfg.prefMaster) :
    (0 < (l.map (electScore cfg)).foldr Nat.max 0 →
      electCandidate cfg l
        = Int.ofNat ((l.map (electScore cfg)).findIdx
            (fun x => x == (l.map (electScore cfg)).foldr Nat.max 0))) ∧
    ((l.map (electScore cfg)).foldr Nat.max 0 = 0 → electCandidate cfg l = -1) := by
  have he := electFrom_eq_runMax cfg l 0 0 0 hp
  constructor
  · intro hM
    rw [electCandidate, he, (runMax_spec (l.map (electScore cfg)) 0 0 0).2 hM]
    simp [hM]
  · intro hM
    rw [electCandidate, he, (runMax_spec (l.map (electScore cfg)) 0 0 0).1 (by omega)]
    simp

/-- C6 witness: spec scenario 4 — eligible candidates with sums 100, 250, 250; the
maximum 250 is positive and the first candidate attaining it is index 1. -/
theorem electCandidate_max_score_first_witness :
    0 < (candsC6.map (electScore cfgC6)).foldr Nat.max 0 ∧
    electCandidate cfgC6 candsC6 = Int.ofNat 1 := by
  refine ⟨by decide, ?_⟩
  have h := (electCandidate_max_score_first cfgC6 candsC6 (by decide)).1 (by decide)
  rw [h]
  decide

/-- Inductive invariant for a run of `check` ticks on the master record (started from
`initMaster`, probes never the `sql.ErrNoRows` sentinel): the "Declaring master as
failed" message has been logged at most once, the failure count never exceeds
`maxfail`, it equals `maxfail` only in state `Failed`, and while the record is
`Master`/`Suspect` the count has never yet reached `maxfail` and no message was
logged. -/
def MInv (cfg : Cfg) (st : RunState) : Prop :=
  st.server.url = cfg.masterURL ∧
  st.masterFailMsgCount ≤ 1 ∧
  st.server.failCount ≤ cfg.maxfail ∧
  (st.server.failCount = cfg.maxfail → st.server.state = SState.Failed) ∧
  ((st.server.state = SState.Master ∨ st.server.state = SState.Suspect) →
    st.attained = false ∧ st.masterFailMsgCount = 0) ∧
  (st.masterFailMsgCount = 1 → st.attained = true)

theorem MInv_init (cfg : Cfg) (hmf : 1 ≤ cfg.maxfail) : MInv cfg (initMaster cfg) := by
  simp [MInv, initMaster, blankServer]
  omega

theorem MInv_step (cfg : Cfg) (hmf : 1 ≤ cfg.maxfail) (st : RunState)
    (hinv : MInv cfg st) (p : ProbeRes) (hp : p ≠ ProbeRes.errNoRows) (nr : Bool) :
    MInv cfg (tickStep cfg st (p, nr)) := by
  obtain ⟨h1, h2, h3, h4, h5, h6⟩ := hinv
  cases p with
  | errNoRows => exact absurd rfl hp
  | ok =>
    by_cases hsf : st.server.state = SState.Failed
    · have hz : ¬((0 : Nat) = cfg.maxfail) := by omega
      cases nr with
      | true =>
        simp [MInv, tickStep, check, hsf, hz, h1, h2, h6]
        try exact h6
      | false =>
        simp [MInv, tickStep, check, hsf, hz, h1, h2, h6]
        try exact h6
    · have hfc : st.server.failCount ≠ cfg.maxfail := fun h => absurd (h4 h) hsf
      by_cases hsm : st.server.state = SState.Master
      · have hatt := h5 (Or.inl hsm)
        cases nr with
        | true =>
          simp [MInv, tickStep, check, hsf, hsm, hfc, h1, h2, h3, hatt.1, hatt.2]
          try exact h6
        | false =>
          simp [MInv, tickStep, check, hsf, hsm, hfc, h1, h2, h3, hatt.1, hatt.2]
          try exact h6
      · cases nr with
        | true =>
          simp [MInv, tickStep, check, hsf, hsm, hfc, h1, h2, h3, h5, h6]
          try exact h6
        | false =>
          by_cases hsu : st.server.state = SState.Unconnected
          · have hz : ¬((0 : Nat) = cfg.maxfail) := by omega
            simp [MInv, tickStep, check, hsf, hsu, hz, h1, h2, h6]
            try exact h6
          · simp [MInv, tickStep, check, hsf, hsm, hsu, hfc, h1, h2, h3, h6]
            exact ⟨fun hh => h5 (Or.inr hh), h6⟩
  | errOther =>
    by_cases harm : st.server.state = SState.Master ∨ st.server.state = SState.Suspect
    · have hatt := h5 harm
      have hfc : st.server.failCount ≠ cfg.maxfail := by
        intro h
        rcases harm with hh | hh <;> rw [h4 h] at hh <;> simp at hh
      by_cases hle : cfg.maxfail ≤ st.server.failCount + 1
      · have heq : st.server.failCount + 1 = cfg.maxfail := by omega
        simp [MInv, tickStep, check, harm, h1, hle, heq, hatt.1, hatt.2]
      · have hne : ¬(st.server.failCount + 1 = cfg.maxfail) := by omega
        simp [MInv, tickStep, check, harm, h1, hle, hne, hatt.1, hatt.2]
        omega
    · push_neg at harm
      obtain ⟨hm1, hm2⟩ := harm
      by_cases hsf : st.server.state = SState.Failed
      · simp [MInv, tickStep, check, hm1, hm2, hsf, h1, h2, h3, h6]
        intro h
        simp [h6 h]
      · have hfc : st.server.failCount ≠ cfg.maxfail := fun h => absurd (h4 h) hsf
        by_cases hle : cfg.maxfail ≤ st.server.failCount + 1
        · have heq : st.server.failCount + 1 = cfg.maxfail := by omega
          simp [MInv, tickStep, check, hm1, hm2, hsf, hle, heq, h1, h2, h3, h6]
        · have hne : ¬(st.server.failCount + 1 = cfg.maxfail) := by omega
          simp [MInv, tickStep, check, hm1, hm2, hsf, hle, hne, h1, h2, h3, h6]
          exact ⟨by omega, h6⟩

theorem MInv_run (cfg : Cfg) (hmf : 1 ≤ cfg.maxfail) :
    ∀ (inputs : List (ProbeRes × Bool)) (st : RunState), MInv cfg st →
      (∀ j ∈ inputs, j.1 ≠ ProbeRes.errNoRows) → MInv cfg (runTicks cfg st inputs) := by
  intro inputs
  induction inputs with
  | nil => intro st h _; exact h
  | cons a rest ih =>
    intro st h hall
    have hstep := MInv_step cfg hmf st h a.1 (hall a (by simp)) a.2
    have hrest : ∀ j ∈ rest, j.1 ≠ ProbeRes.errNoRows := fun j hj => hall j (by simp [hj])
    simpa [runTicks, List.foldl_cons] using ih (tickStep cfg st a) hstep hrest

theorem check_masterFailMsg_spec (cfg : Cfg) (s : ServerMonitor) (slaves : List String)
    (p : ProbeRes) (nr : Bool) (h : (check cfg s slaves p nr).masterFailMsg = true) :
    (s.state = SState.Master ∨ s.state = SState.Suspect) ∧
    (check cfg s slaves p nr).server.failCount = cfg.maxfail ∧
    s.failCount + 1 = cfg.maxfail := by
  cases p with
  | ok =>
    exfalso
    cases nr with
    | true =>
      by_cases hsf : s.state = SState.Failed
      · simp [check, hsf] at h
      · by_cases hsm : s.state = SState.Master
        · simp [check, hsf, hsm] at h
        · simp [check, hsf, hsm] at h
    | false =>
      by_cases hpf : s.state = SState.Failed ∨ s.state = SState.Unconnected
      · simp [check, hpf] at h
      · simp [check, hpf] at h
  | errNoRows =>
    exfalso
    by_cases hst : s.state ≠ SState.Master ∧ s.state ≠ SState.Failed
    · by_cases hle : cfg.maxfail ≤ s.failCount + 1
      · by_cases heq : s.failCount + 1 = cfg.maxfail
        · simp [check, hst, hle, heq] at h
        · simp [check, hst, hle, heq] at h
      · simp [check, hst, hle] at h
    · simp [check, hst] at h
  | errOther =>
    by_cases harm : s.state = SState.Master ∨ s.state = SState.Suspect
    · by_cases hurl : s.url = cfg.masterURL
      · by_cases hle : cfg.maxfail ≤ s.failCount + 1
        · refine ⟨harm, ?_, ?_⟩
          · simp [check, harm, hurl, hle] at h ⊢
            omega
          · simp [check, harm, hurl, hle] at h
            exact h
        · exfalso
          simp [check, harm, hurl, hle] at h
      · exfalso
        simp [check, harm, hurl] at h
    · exfalso
      push_neg at harm
      obtain ⟨hm1, hm2⟩ := harm
      by_cases hsf : s.state = SState.Failed
      · simp [check, hm1, hm2, hsf] at h
      · by_cases hle : cfg.maxfail ≤ s.failCount + 1
        · by_cases heq : s.failCount + 1 = cfg.maxfail
          · simp [check, hm1, hm2, hsf, hle, heq] at h
          · simp [check, hm1, hm2, hsf, hle, heq] at h
        · simp [check, hm1, hm2, hsf, hle] at h

/-- C3: when the master record's probe fails (a real probe error, never the
`sql.ErrNoRows` sentinel): its `FailCount` is incremented; if the incremented count
reaches `maxfail` the state becomes `Failed`, otherwise `Suspect`; the "Declaring
master as failed" message is logged on that tick iff the incremented count equals
`maxfail` exactly; and over any run from a healthy master (state `Master`,
`FailCount` 0) the message is logged at most once, namely on a tick after which
`FailCount` equals `maxfail` and before which `FailCount` had never reached
`maxfail`. -/
theorem master_fail_declared_once (cfg : Cfg) (hmf : 1 ≤ cfg.maxfail) :
    (∀ (s : ServerMonitor) (slaves : List String) (nr : Bool),
      s.url = cfg.masterURL → (s.state = SState.Master ∨ s.state = SState.Suspect) →
      (check cfg s slaves ProbeRes.errOther nr).server.failCount = s.failCount + 1 ∧
      (cfg.maxfail ≤ s.failCount + 1 →
        (check cfg s slaves ProbeRes.errOther nr).server.state = SState.Failed) ∧
      (s.failCount + 1 < cfg.maxfail →
        (check cfg s slaves ProbeRes.errOther nr).server.state = SState.Suspect) ∧
      ((check cfg s slaves ProbeRes.errOther nr).masterFailMsg = true ↔
        s.failCount + 1 = cfg.maxfail)) ∧
    (∀ inputs : List (ProbeRes × Bool), (∀ j ∈ inputs, j.1 ≠ ProbeRes.errNoRows) →
      (runTicks cfg (initMaster cfg) inputs).masterFailMsgCount ≤ 1) ∧
    (∀ (pre : List (ProbeRes × Bool)) (j : ProbeRes × Bool),
      (∀ k ∈ pre, k.1 ≠ ProbeRes.errNoRows) → j.1 ≠ ProbeRes.errNoRows →
      (runTicks cfg (initMaster cfg) pre).masterFailMsgCount = 0 →
      (runTicks cfg (initMaster cfg) (pre ++ [j])).masterFailMsgCount = 1 →
      (runTicks cfg (initMaster cfg) (pre ++ [j])).server.failCount = cfg.maxfail ∧
      (runTicks cfg (initMaster cfg) pre).attained = false) := by
  refine ⟨?_, ?_, ?_⟩
  · intro s slaves nr hurl harm
    by_cases hle : cfg.maxfail ≤ s.failCount + 1
    · simp [check, harm, hurl, hle]
      try omega
    · simp [check, harm, hurl, hle]
      try omega
  · intro inputs hall
    exact (MInv_run cfg hmf inputs (initMaster cfg) (MInv_init cfg hmf) hall).2.1
  · intro pre j hall hj h0 h1'
    have hst := MInv_run cfg hmf pre (initMaster cfg) (MInv_init cfg hmf) hall
    have happ : runTicks cfg (initMaster cfg) (pre ++ [j])
        = tickStep cfg (runTicks cfg (initMaster cfg) pre) j := by
      simp [runTicks, List.foldl_append]
    have hmsg : (check cfg (runTicks cfg (initMaster cfg) pre).server
        (runTicks cfg (initMaster cfg) pre).slaves j.1 j.2).masterFailMsg = true := by
      by_contra hneg
      have hfalse : (check cfg (runTicks cfg (initMaster cfg) pre).server
          (runTicks cfg (initMaster cfg) pre).slaves j.1 j.2).masterFailMsg = false := by
        simpa using hneg
      rw [happ] at h1'
      simp [tickStep, hfalse] at h1'
      omega
    have hchar := check_masterFailMsg_spec cfg (runTicks cfg (initMaster cfg) pre).server
      (runTicks cfg (initMaster cfg) pre).slaves j.1 j.2 hmsg
    constructor
    · rw [happ]
      simpa [tickStep] using hchar.2.1
    · exact (hst.2.2.2.2.1 hchar.1).1

/-- C3 witness: the run part of the theorem applied with `maxfail = 2` to the run that
fails the master twice: the message tick is the second one, `FailCount` ends at 2, and
the count had not reached `maxfail` before. -/
theorem master_fail_declared_once_witness :
    (runTicks cfgC3 (initMaster cfgC3)
        ([(ProbeRes.errOther, false)] ++ [(ProbeRes.errOther, false)])).server.failCount
      = cfgC3.maxfail ∧
    (runTicks cfgC3 (initMaster cfgC3) [(ProbeRes.errOther, false)]).attained = false :=
  (master_fail_declared_once cfgC3 (by decide)).2.2 [(ProbeRes.errOther, false)]
    (ProbeRes.errOther, false) (by decide) (by decide) (by decide) (by decide)

end RepMon
